import Mathlib

/-!
Verification of the simple-notes-manager backend
(`src/notes_api_backend/src/api/`): a CRUD notes service consisting of
Pydantic models (`models.py`), SQLite storage helpers (`db.py`) and FastAPI
route handlers (`notes_routes.py`).

Shallow embedding notes:
* The SQLite table `notes(id, title, content, created_at, updated_at)` is
  modelled as a list of rows plus the AUTOINCREMENT sequence counter
  (`seq` = largest rowid ever assigned; SQLite AUTOINCREMENT assigns
  `seq + 1` to the next insert and never reuses ids).
* Timestamps are produced by `utc_now_iso` as fixed-width ISO-8601 UTC
  strings (`YYYY-MM-DDTHH:MM:SSZ`, second precision); on such strings
  SQLite's lexicographic TEXT comparison coincides with chronological
  order, so timestamps are modelled as values of a totally ordered clock
  (`Nat`).  Each handler receives the value of its single
  `db.utc_now_iso()` call as an explicit `now` argument.
* Pydantic validation of request bodies runs before the handler body; the
  endpoint functions below first apply the `models.py` constraints and
  answer `validationError` (HTTP 422) when they fail, then run the
  handler translated line by line from `notes_routes.py`.
-/

namespace NotesApi

/-- A row of the `notes` table (= `NoteOut` in `models.py`). -/
structure Note where
  id : Nat
  title : String
  content : String
  created_at : Nat
  updated_at : Nat
deriving Repr, DecidableEq

/-- The SQLite store: the rows of the `notes` table in insertion order,
plus the AUTOINCREMENT sequence (largest id ever assigned). -/
structure Store where
  rows : List Note
  seq : Nat
deriving Repr, DecidableEq

/-- A freshly created database after `ensure_schema`. -/
def emptyStore : Store := { rows := [], seq := 0 }

/-- `models.py` `NoteCreate`: payload for creating a note. -/
structure NoteCreate where
  title : String
  content : String
deriving Repr, DecidableEq

/-- Pydantic constraints on `NoteCreate`:
`title: min_length=1, max_length=200`, `content: min_length=1`. -/
def NoteCreate.valid (p : NoteCreate) : Bool :=
  1 ≤ p.title.length && p.title.length ≤ 200 && 1 ≤ p.content.length

/-- `models.py` `NoteUpdate`: payload for updating a note, both fields
optional. -/
structure NoteUpdate where
  title : Option String
  content : Option String
deriving Repr, DecidableEq

/-- Pydantic constraints on `NoteUpdate`: same length rules as
`NoteCreate`, applied only to fields that are present. -/
def NoteUpdate.valid (p : NoteUpdate) : Bool :=
  (match p.title with
   | none => true
   | some t => 1 ≤ t.length && t.length ≤ 200) &&
  (match p.content with
   | none => true
   | some c => 1 ≤ c.length)

/-- `db.execute_select_one` specialised to
`SELECT ... FROM notes WHERE id = ?`: the row whose primary key matches,
or `none`. -/
def selectOne (st : Store) (id : Nat) : Option Note :=
  st.rows.find? (fun n => n.id == id)

/-- The `ORDER BY updated_at DESC, id DESC` ordering of `list_notes`:
`a` comes no later than `b` when `a` has the larger `updated_at`, or equal
`updated_at` and the larger-or-equal `id`. -/
def noteLE (a b : Note) : Prop :=
  b.updated_at < a.updated_at ∨ (a.updated_at = b.updated_at ∧ b.id ≤ a.id)

instance : DecidableRel noteLE := fun a b => by
  unfold noteLE; infer_instance

instance : IsTotal Note noteLE where
  total a b := by
    rcases lt_trichotomy a.updated_at b.updated_at with h | h | h
    · exact Or.inr (Or.inl h)
    · rcases Nat.le_total a.id b.id with h2 | h2
      · exact Or.inr (Or.inr ⟨h.symm, h2⟩)
      · exact Or.inl (Or.inr ⟨h, h2⟩)
    · exact Or.inl (Or.inl h)

instance : IsTrans Note noteLE where
  trans a b c hab hbc := by
    rcases hab with h1 | ⟨h1, h1'⟩ <;> rcases hbc with h2 | ⟨h2, h2'⟩ <;>
      unfold noteLE <;> omega

/-- `db.execute_select` specialised to
`SELECT ... FROM notes ORDER BY updated_at DESC, id DESC`: every row,
sorted by the §3 ordering. -/
def selectAll (st : Store) : List Note :=
  List.insertionSort noteLE st.rows

/-- `db.execute_modify` specialised to
`INSERT INTO notes (title, content, created_at, updated_at)
VALUES (?, ?, ?, ?)`: appends a row with a fresh AUTOINCREMENT id and
both timestamps set to the caller's values; returns `cur.lastrowid`. -/
def insertRow (st : Store) (title content : String)
    (created updated : Nat) : Store × Nat :=
  let nid := st.seq + 1
  ({ rows := st.rows ++
      [{ id := nid, title := title, content := content,
         created_at := created, updated_at := updated }],
     seq := nid }, nid)

/-- `db.execute_modify` specialised to
`UPDATE notes SET title = ?, content = ?, updated_at = ? WHERE id = ?`:
overwrites title/content/updated_at of every row matching the id (a no-op
when the id is absent); `id` and `created_at` are not touched. -/
def updateRow (st : Store) (id : Nat) (title content : String)
    (now : Nat) : Store :=
  { st with rows := st.rows.map (fun n =>
      if n.id == id then
        { n with title := title, content := content, updated_at := now }
      else n) }

/-- `db.execute_modify` specialised to `DELETE FROM notes WHERE id = ?`:
removes every row matching the id (a no-op when absent). -/
def deleteRow (st : Store) (id : Nat) : Store :=
  { st with rows := st.rows.filter (fun n => n.id != id) }

/-- HTTP outcome of a request, as produced by the route handlers. -/
inductive Resp where
  /-- 200/201 with a `NoteOut` body. -/
  | ok (note : Note)
  /-- 204 No Content (successful delete). -/
  | noContent
  /-- 422: Pydantic rejected the request body. -/
  | validationError
  /-- 400 Bad Request ("No fields provided to update"). -/
  | badRequest
  /-- 404 Not Found ("Note not found"). -/
  | notFound
  /-- 500 Internal Server Error (post-mutation re-read failed). -/
  | serverError
deriving Repr, DecidableEq

/-- `GET /api/notes` (`list_notes`): all notes ordered by
`updated_at DESC, id DESC`; always succeeds with 200. -/
def list_notes (st : Store) : List Note :=
  selectAll st

/-- `GET /api/notes/{id}` (`get_note`): the note with the given id, or
404. -/
def get_note (note_id : Nat) (st : Store) : Resp :=
  match selectOne st note_id with
  | none => .notFound
  | some row => .ok row

/-- `POST /api/notes` (`create_note`), including the Pydantic boundary:
validate the payload, compute `now` once, insert with both timestamps
`now`, re-read the new row; 500 if the re-read fails. -/
def create_note (payload : NoteCreate) (now : Nat) (st : Store) :
    Store × Resp :=
  if ¬ payload.valid then (st, .validationError)
  else
    let (st1, new_id) := insertRow st payload.title payload.content now now
    match selectOne st1 new_id with
    | none => (st1, .serverError)
    | some row => (st1, .ok row)

/-- `PUT /api/notes/{id}` (`update_note`), including the Pydantic
boundary: validate the payload, check existence (404), fall back to the
stored value for each omitted field, reject an all-empty payload (400),
compute `now` once, update, re-read; 500 if the re-read fails. -/
def update_note (note_id : Nat) (payload : NoteUpdate) (now : Nat)
    (st : Store) : Store × Resp :=
  if ¬ payload.valid then (st, .validationError)
  else
    match selectOne st note_id with
    | none => (st, .notFound)
    | some existing =>
      let new_title := payload.title.getD existing.title
      let new_content := payload.content.getD existing.content
      if payload.title = none ∧ payload.content = none then
        (st, .badRequest)
      else
        let st1 := updateRow st note_id new_title new_content now
        match selectOne st1 note_id with
        | none => (st1, .serverError)
        | some row => (st1, .ok row)

/-- `DELETE /api/notes/{id}` (`delete_note`): existence check (404), then
delete and answer 204 with an empty body. -/
def delete_note (note_id : Nat) (st : Store) : Store × Resp :=
  match selectOne st note_id with
  | none => (st, .notFound)
  | some _ => (deleteRow st note_id, .noContent)

/-- Well-formedness of a reachable store: every id is at most the
sequence counter, and ids are pairwise distinct. -/
def Store.WF (st : Store) : Prop :=
  (∀ n ∈ st.rows, n.id ≤ st.seq) ∧
  st.rows.Pairwise (fun a b => a.id ≠ b.id)

/-- The `updated_at ≥ created_at` invariant of §3. -/
def tsOK (st : Store) : Prop :=
  ∀ n ∈ st.rows, n.created_at ≤ n.updated_at

/-- The clock reads at least every timestamp already written: the wall
clock only moves forward, so this holds of the `now` taken by any later
operation. -/
def freshTs (st : Store) (now : Nat) : Prop :=
  ∀ n ∈ st.rows, n.created_at ≤ now ∧ n.updated_at ≤ now

/-! ### Helper lemmas about the storage primitives -/

lemma selectOne_some {st : Store} {id : Nat} {e : Note}
    (h : selectOne st id = some e) : e ∈ st.rows ∧ e.id = id := by
  refine ⟨List.mem_of_find?_eq_some h, ?_⟩
  have := List.find?_some h
  simpa using this

lemma selectOne_none {st : Store} {id : Nat}
    (h : selectOne st id = none) : ∀ n ∈ st.rows, n.id ≠ id := by
  intro n hn
  have := List.find?_eq_none.1 h n hn
  simpa using this

/-- After an insert into a store whose ids are all `≤ seq`, re-reading
the fresh id finds exactly the new row. -/
lemma selectOne_insertRow (st : Store) (t c : String) (cr up : Nat)
    (h : ∀ n ∈ st.rows, n.id ≤ st.seq) :
    selectOne (insertRow st t c cr up).1 (st.seq + 1) =
      some { id := st.seq + 1, title := t, content := c,
             created_at := cr, updated_at := up } := by
  unfold selectOne insertRow
  rw [List.find?_append]
  have hnone : st.rows.find? (fun n => n.id == st.seq + 1) = none := by
    rw [List.find?_eq_none]
    intro n hn
    have := h n hn
    simp only [beq_iff_eq]
    omega
  rw [hnone]
  simp

/-- `create_note` on a valid payload over a store with in-range ids:
the exact resulting store and response. -/
lemma create_note_eq (p : NoteCreate) (now : Nat) (st : Store)
    (hv : p.valid = true) (h : ∀ n ∈ st.rows, n.id ≤ st.seq) :
    create_note p now st =
      ({ rows := st.rows ++
          [{ id := st.seq + 1, title := p.title, content := p.content,
             created_at := now, updated_at := now }],
         seq := st.seq + 1 },
       Resp.ok { id := st.seq + 1, title := p.title, content := p.content,
                 created_at := now, updated_at := now }) := by
  unfold create_note
  rw [hv]
  have hsel := selectOne_insertRow st p.title p.content now now h
  unfold insertRow at hsel ⊢
  simp only at hsel ⊢
  rw [hsel]
  simp

lemma find?_map_update (rows : List Note) (id : Nat) (t c : String)
    (now : Nat) (e : Note)
    (he : rows.find? (fun n => n.id == id) = some e) :
    (rows.map (fun n =>
        if n.id == id then
          { n with title := t, content := c, updated_at := now }
        else n)).find? (fun n => n.id == id) =
      some { e with title := t, content := c, updated_at := now } := by
  induction rows with
  | nil => simp at he
  | cons x xs ih =>
    by_cases hx : x.id = id
    · rw [List.find?_cons_of_pos _ (by simpa using hx)] at he
      cases he
      rw [List.map_cons, if_pos (by simpa using hx)]
      rw [List.find?_cons_of_pos _ (by simpa using hx)]
    · rw [List.find?_cons_of_neg _ (by simpa using hx)] at he
      rw [List.map_cons, if_neg (by simpa using hx)]
      rw [List.find?_cons_of_neg _ (by simpa using hx)]
      exact ih he

/-- Re-reading an id after `updateRow` on that id: the first row that
matched before is found again, with title/content/`updated_at`
overwritten and id/`created_at` untouched. -/
lemma selectOne_updateRow {st : Store} {id : Nat} {e : Note}
    (he : selectOne st id = some e) (t c : String) (now : Nat) :
    selectOne (updateRow st id t c now) id =
      some { e with title := t, content := c, updated_at := now } := by
  unfold selectOne at he
  unfold selectOne updateRow
  exact find?_map_update st.rows id t c now e he

/-- `update_note` on a valid, non-empty payload addressed to an existing
row: the exact resulting store and response. -/
lemma update_note_eq (note_id : Nat) (p : NoteUpdate) (now : Nat)
    (st : Store) (e : Note) (hv : p.valid = true)
    (he : selectOne st note_id = some e)
    (hne : ¬ (p.title = none ∧ p.content = none)) :
    update_note note_id p now st =
      (updateRow st note_id (p.title.getD e.title)
        (p.content.getD e.content) now,
       Resp.ok { e with
                 title := p.title.getD e.title,
                 content := p.content.getD e.content,
                 updated_at := now }) := by
  unfold update_note
  rw [hv]
  simp only [Bool.not_true, Bool.false_eq_true, if_false]
  rw [he]
  simp only [hne, if_false]
  rw [selectOne_updateRow he]
  simp

/-- Deleting an id removes every row with that id. -/
lemma selectOne_deleteRow (st : Store) (id : Nat) :
    selectOne (deleteRow st id) id = none := by
  unfold selectOne deleteRow
  rw [List.find?_eq_none]
  intro n hn
  have := (List.mem_filter.1 hn).2
  simp only [bne_iff_ne, ne_eq] at this
  simp [this]

lemma mem_deleteRow {st : Store} {id : Nat} {n : Note} :
    n ∈ (deleteRow st id).rows ↔ n ∈ st.rows ∧ n.id ≠ id := by
  unfold deleteRow
  simp [List.mem_filter]

instance (st : Store) : Decidable st.WF := by
  unfold Store.WF; infer_instance

instance (st : Store) : Decidable (tsOK st) := by
  unfold tsOK; infer_instance

instance (st : Store) (now : Nat) : Decidable (freshTs st now) := by
  unfold freshTs; infer_instance

/-- `updateRow` never touches `id` or `created_at` of any row. -/
lemma updateRow_map_id_created (st : Store) (id : Nat) (t c : String)
    (now : Nat) :
    (updateRow st id t c now).rows.map (fun n => (n.id, n.created_at)) =
      st.rows.map (fun n => (n.id, n.created_at)) := by
  unfold updateRow
  simp only [List.map_map]
  refine List.map_congr_left ?_
  intro n _
  by_cases h : n.id = id <;> simp [h]

/-- `updateRow` preserves the list of ids. -/
lemma updateRow_map_id (st : Store) (id : Nat) (t c : String)
    (now : Nat) :
    (updateRow st id t c now).rows.map Note.id = st.rows.map Note.id := by
  unfold updateRow
  simp only [List.map_map]
  refine List.map_congr_left ?_
  intro n _
  by_cases h : n.id = id <;> simp [h]

lemma WF_insertRow (st : Store) (t c : String) (cr up : Nat)
    (hwf : st.WF) : (insertRow st t c cr up).1.WF := by
  obtain ⟨h1, h2⟩ := hwf
  unfold insertRow
  constructor
  · intro n hn
    simp only [List.mem_append, List.mem_singleton] at hn
    rcases hn with hn | rfl
    · exact Nat.le_succ_of_le (h1 n hn)
    · simp
  · rw [List.pairwise_append]
    refine ⟨h2, List.pairwise_singleton _ _, ?_⟩
    intro a ha b hb
    simp only [List.mem_singleton] at hb
    subst hb
    have := h1 a ha
    simp only
    omega

lemma WF_updateRow (st : Store) (id : Nat) (t c : String) (now : Nat)
    (hwf : st.WF) : (updateRow st id t c now).WF := by
  obtain ⟨h1, h2⟩ := hwf
  constructor
  · intro n hn
    unfold updateRow at hn
    simp only [List.mem_map] at hn
    obtain ⟨m, hm, rfl⟩ := hn
    have := h1 m hm
    by_cases h : m.id = id <;> simp [updateRow, h] <;> omega
  · unfold updateRow
    rw [List.pairwise_map]
    refine h2.imp_of_mem ?_
    intro a b _ _ hab
    have hfa : ∀ n : Note,
        (if n.id == id then
          { n with title := t, content := c, updated_at := now }
        else n).id = n.id := by
      intro n
      by_cases h : n.id = id <;> simp [h]
    simp only [hfa]
    exact hab

lemma WF_deleteRow (st : Store) (id : Nat) (hwf : st.WF) :
    (deleteRow st id).WF := by
  obtain ⟨h1, h2⟩ := hwf
  constructor
  · intro n hn
    exact h1 n (mem_deleteRow.1 hn).1
  · unfold deleteRow
    exact h2.sublist (List.filter_sublist _)

/-- In a `Pairwise R` list that contains `a` and `b` with `¬ R a b` and
`b ≠ a`, `b` occurs strictly before `a`. -/
lemma sublist_pair_of_pairwise {α : Type _} {R : α → α → Prop}
    {l : List α} {a b : α} (hp : l.Pairwise R) (ha : a ∈ l) (hb : b ∈ l)
    (hne : b ≠ a) (hnab : ¬ R a b) : [b, a].Sublist l := by
  induction l with
  | nil => simp at ha
  | cons x xs ih =>
    rcases List.pairwise_cons.1 hp with ⟨hx, hxs⟩
    rcases List.mem_cons.1 ha with rfl | ha'
    · rcases List.mem_cons.1 hb with rfl | hb'
      · exact absurd rfl hne
      · exact absurd (hx b hb') hnab
    · rcases List.mem_cons.1 hb with rfl | hb'
      · exact List.Sublist.cons₂ b (List.singleton_sublist.mpr ha')
      · exact List.Sublist.cons x (ih hxs ha' hb')

/-! ### Claim theorems -/

/-- C1: for every update request, the existence check runs before the
at-least-one-field check; an update addressed to an id with no matching
note returns 404 regardless of the (valid) request body, even an empty
body, and an update addressed to an existing id whose body supplies
neither title nor content returns 400. -/
theorem C1_update_existence_check_first (st : Store) (note_id now : Nat) :
    (∀ p : NoteUpdate, p.valid = true → selectOne st note_id = none →
      update_note note_id p now st = (st, Resp.notFound)) ∧
    (∀ e : Note, selectOne st note_id = some e →
      update_note note_id { title := none, content := none } now st =
        (st, Resp.badRequest)) := by
  constructor
  · intro p hv hnone
    unfold update_note
    rw [hv, hnone]
    simp
  · intro e he
    unfold update_note
    rw [he]
    simp [NoteUpdate.valid]

/-- Witness for C1 on a one-note store: updating absent id 2 gives 404
even with the empty body; updating existing id 1 with the empty body
gives 400. -/
theorem C1_witness :
    update_note 2 { title := none, content := none } 7
        { rows := [{ id := 1, title := "a", content := "b",
                     created_at := 0, updated_at := 0 }], seq := 1 } =
      ({ rows := [{ id := 1, title := "a", content := "b",
                    created_at := 0, updated_at := 0 }], seq := 1 },
       Resp.notFound) ∧
    update_note 1 { title := none, content := none } 7
        { rows := [{ id := 1, title := "a", content := "b",
                     created_at := 0, updated_at := 0 }], seq := 1 } =
      ({ rows := [{ id := 1, title := "a", content := "b",
                    created_at := 0, updated_at := 0 }], seq := 1 },
       Resp.badRequest) :=
  ⟨(C1_update_existence_check_first _ 2 7).1
      { title := none, content := none } (by decide) (by decide),
   (C1_update_existence_check_first _ 1 7).2
      { id := 1, title := "a", content := "b",
        created_at := 0, updated_at := 0 } (by decide)⟩

/-- C7: a create request whose title is empty, longer than 200
characters, or whose content is empty is rejected at the validation
boundary: the response is the validation error and the store is returned
unchanged (no row inserted). -/
theorem C7_create_validation_rejects (p : NoteCreate) (now : Nat)
    (st : Store)
    (h : p.title.length = 0 ∨ 200 < p.title.length ∨
         p.content.length = 0) :
    create_note p now st = (st, Resp.validationError) := by
  have hv : p.valid = false := by
    apply Bool.eq_false_iff.mpr
    unfold NoteCreate.valid
    simp only [ne_eq, Bool.and_eq_true, decide_eq_true_eq, not_and]
    rintro ⟨h1, h2⟩ h3
    omega
  unfold create_note
  rw [hv]
  simp

/-- Witness for C7: creating with an empty title on the empty store is
rejected and leaves the store empty. -/
theorem C7_witness :
    create_note { title := "", content := "x" } 3 emptyStore =
      (emptyStore, Resp.validationError) :=
  C7_create_validation_rejects { title := "", content := "x" } 3
    emptyStore (by decide)

/-- C10: in a sequential execution the 500 branches are dead code: the
re-read after an insert, and the re-read after an update whose existence
check passed, always find the row, so `create_note` and `update_note`
never answer `serverError`. -/
theorem C10_no_500_sequential (st : Store) (now : Nat) :
    (∀ p : NoteCreate, (create_note p now st).2 ≠ Resp.serverError) ∧
    (∀ (note_id : Nat) (p : NoteUpdate),
      (update_note note_id p now st).2 ≠ Resp.serverError) := by
  constructor
  · intro p
    unfold create_note
    by_cases hv : p.valid = true
    · rw [hv]
      have hmem : ∃ x ∈ (insertRow st p.title p.content now now).1.rows,
          (x.id == st.seq + 1) = true := by
        refine ⟨{ id := st.seq + 1, title := p.title, content := p.content,
                  created_at := now, updated_at := now }, ?_, by simp⟩
        unfold insertRow
        simp
      obtain ⟨row, hrow⟩ :=
        Option.isSome_iff_exists.1 (List.find?_isSome.2 hmem)
      unfold insertRow at hrow ⊢
      simp only at hrow ⊢
      unfold selectOne
      simp only
      rw [hrow]
      simp
    · rw [Bool.eq_false_iff.mpr hv]
      simp
  · intro note_id p
    unfold update_note
    by_cases hv : p.valid = true
    · rw [hv]
      simp only [Bool.not_true, Bool.false_eq_true, if_false]
      cases he : selectOne st note_id with
      | none => simp
      | some e =>
        by_cases hne : p.title = none ∧ p.content = none
        · simp [hne]
        · simp only [hne, if_false]
          rw [selectOne_updateRow he]
          simp
    · rw [Bool.eq_false_iff.mpr hv]
      simp

/-- Witness for C10 (its only hypotheses are the inequalities in the
conclusion): on the one-note store neither a create nor an update
answers 500. -/
theorem C10_witness :
    (create_note { title := "t", content := "c" } 9
        { rows := [{ id := 1, title := "a", content := "b",
                     created_at := 0, updated_at := 0 }], seq := 1 }).2 ≠
      Resp.serverError ∧
    (update_note 1 { title := some "t", content := none } 9
        { rows := [{ id := 1, title := "a", content := "b",
                     created_at := 0, updated_at := 0 }], seq := 1 }).2 ≠
      Resp.serverError :=
  ⟨(C10_no_500_sequential _ 9).1 { title := "t", content := "c" },
   (C10_no_500_sequential _ 9).2 1 { title := some "t", content := none }⟩

/-- C2: for every valid payload (title of 1–200 characters, non-empty
content) over a well-formed store, create answers 201 (`Resp.ok` of the
create route) with a note whose title and content equal the payload's
and whose `created_at` equals `updated_at`, both being the single `now`
of the operation; a subsequent get on the returned id returns that same
note. -/
theorem C2_create_then_get (p : NoteCreate) (now : Nat) (st : Store)
    (hwf : st.WF) (hv : p.valid = true) :
    ∃ (note : Note) (st' : Store),
      create_note p now st = (st', Resp.ok note) ∧
      note.title = p.title ∧ note.content = p.content ∧
      note.created_at = now ∧ note.updated_at = now ∧
      note.created_at = note.updated_at ∧
      get_note note.id st' = Resp.ok note := by
  obtain ⟨h1, _⟩ := hwf
  refine ⟨_, _, create_note_eq p now st hv h1, rfl, rfl, rfl, rfl, rfl, ?_⟩
  unfold get_note
  have hsel := selectOne_insertRow st p.title p.content now now h1
  unfold insertRow at hsel
  simp only at hsel ⊢
  rw [hsel]

/-- Witness for C2: create `("a", "b")` at time 3 on the empty store,
then get it back. -/
theorem C2_witness :
    ∃ (note : Note) (st' : Store),
      create_note { title := "a", content := "b" } 3 emptyStore =
        (st', Resp.ok note) ∧
      note.title = "a" ∧ note.content = "b" ∧
      note.created_at = 3 ∧ note.updated_at = 3 ∧
      note.created_at = note.updated_at ∧
      get_note note.id st' = Resp.ok note :=
  C2_create_then_get { title := "a", content := "b" } 3 emptyStore
    (by decide) (by decide)

/-- C3: a partial update of an existing note leaves every omitted field
at its prior stored value, and the returned note keeps the prior id and
`created_at`; moreover no update (whatever its outcome) changes the id
or `created_at` of any stored row. -/
theorem C3_partial_update_frame (st : Store) (note_id now : Nat)
    (p : NoteUpdate) :
    (∀ e : Note, p.valid = true → selectOne st note_id = some e →
      ¬ (p.title = none ∧ p.content = none) →
      ∃ (note : Note) (st' : Store),
        update_note note_id p now st = (st', Resp.ok note) ∧
        note.id = e.id ∧ note.created_at = e.created_at ∧
        (p.title = none → note.title = e.title) ∧
        (p.content = none → note.content = e.content)) ∧
    ((update_note note_id p now st).1.rows.map
        (fun n => (n.id, n.created_at)) =
      st.rows.map (fun n => (n.id, n.created_at))) := by
  constructor
  · intro e hv he hne
    refine ⟨_, _, update_note_eq note_id p now st e hv he hne,
      rfl, rfl, ?_, ?_⟩
    · intro h; simp [h]
    · intro h; simp [h]
  · unfold update_note
    by_cases hv : p.valid = true
    · rw [hv]
      simp only [Bool.not_true, Bool.false_eq_true, if_false]
      cases he : selectOne st note_id with
      | none => simp
      | some e =>
        by_cases hne : p.title = none ∧ p.content = none
        · simp [hne]
        · simp only [hne, if_false]
          rw [selectOne_updateRow he]
          simp only
          exact updateRow_map_id_created st note_id _ _ now
    · rw [Bool.eq_false_iff.mpr hv]
      simp

/-- Witness for C3: updating only the content of note 1 keeps its title,
id and `created_at`. -/
theorem C3_witness :
    ∃ (note : Note) (st' : Store),
      update_note 1 { title := none, content := some "new" } 9
          { rows := [{ id := 1, title := "a", content := "b",
                       created_at := 2, updated_at := 2 }], seq := 1 } =
        (st', Resp.ok note) ∧
      note.id = 1 ∧ note.created_at = 2 ∧
      (({ title := none, content := some "new" } : NoteUpdate).title =
          none → note.title = "a") ∧
      (({ title := none, content := some "new" } : NoteUpdate).content =
          none → note.content = "b") :=
  (C3_partial_update_frame
      { rows := [{ id := 1, title := "a", content := "b",
                   created_at := 2, updated_at := 2 }], seq := 1 }
      1 9 { title := none, content := some "new" }).1
    { id := 1, title := "a", content := "b",
      created_at := 2, updated_at := 2 }
    (by decide) (by decide) (by decide)

/-- C4: every successful update (existing id, at least one field in a
valid payload) sets the note's `updated_at` to the operation's `now`,
whatever the supplied values are; when the clock has not gone backwards
(`now` at least the prior `updated_at`) the new `updated_at` is ≥ the
prior one. -/
theorem C4_update_refreshes_updated_at (st : Store) (note_id now : Nat)
    (p : NoteUpdate) (e : Note) (hv : p.valid = true)
    (he : selectOne st note_id = some e)
    (hne : ¬ (p.title = none ∧ p.content = none)) :
    ∃ (note : Note) (st' : Store),
      update_note note_id p now st = (st', Resp.ok note) ∧
      note.updated_at = now ∧
      (e.updated_at ≤ now → e.updated_at ≤ note.updated_at) := by
  exact ⟨_, _, update_note_eq note_id p now st e hv he hne, rfl,
    fun h => h⟩

/-- Witness for C4: re-supplying the stored values still moves
`updated_at` to the operation's `now`. -/
theorem C4_witness :
    ∃ (note : Note) (st' : Store),
      update_note 1 { title := some "a", content := some "b" } 9
          { rows := [{ id := 1, title := "a", content := "b",
                       created_at := 2, updated_at := 2 }], seq := 1 } =
        (st', Resp.ok note) ∧
      note.updated_at = 9 ∧
      (2 ≤ 9 → 2 ≤ note.updated_at) :=
  C4_update_refreshes_updated_at
    { rows := [{ id := 1, title := "a", content := "b",
                 created_at := 2, updated_at := 2 }], seq := 1 }
    1 9 { title := some "a", content := some "b" }
    { id := 1, title := "a", content := "b",
      created_at := 2, updated_at := 2 }
    (by decide) (by decide) (by decide)

/-- C8: on a well-formed store, delete on an existing id answers 204
with an empty body (`Resp.noContent`), removes exactly that note (the
note is gone, every other row survives, nothing is added), and a
subsequent get on that id answers 404; delete on an absent id answers
404 and leaves the store unchanged. -/
theorem C8_delete_semantics (st : Store) (note_id : Nat) (hwf : st.WF) :
    (∀ e : Note, selectOne st note_id = some e →
      delete_note note_id st = (deleteRow st note_id, Resp.noContent) ∧
      e ∉ (deleteRow st note_id).rows ∧
      (∀ n ∈ st.rows, n ≠ e → n ∈ (deleteRow st note_id).rows) ∧
      (∀ n ∈ (deleteRow st note_id).rows, n ∈ st.rows) ∧
      get_note note_id (deleteRow st note_id) = Resp.notFound) ∧
    (selectOne st note_id = none →
      delete_note note_id st = (st, Resp.notFound)) := by
  obtain ⟨_, h2⟩ := hwf
  constructor
  · intro e he
    obtain ⟨hemem, heid⟩ := selectOne_some he
    refine ⟨?_, ?_, ?_, ?_, ?_⟩
    · unfold delete_note
      rw [he]
    · intro hmem
      exact absurd heid (mem_deleteRow.1 hmem).2
    · intro n hn hne
      refine mem_deleteRow.2 ⟨hn, ?_⟩
      have hsymm : Symmetric (fun a b : Note => a.id ≠ b.id) :=
        fun _a _b h heq => h heq.symm
      have : n.id ≠ e.id :=
        List.Pairwise.forall hsymm h2 hn hemem hne
      omega
    · intro n hn
      exact (mem_deleteRow.1 hn).1
    · unfold get_note
      rw [selectOne_deleteRow]
  · intro hnone
    unfold delete_note
    rw [hnone]

/-- Witness for C8 on a two-note store: deleting id 1 removes it, keeps
id 2 and makes a get on id 1 answer 404; deleting the absent id 3
answers 404 and changes nothing. -/
theorem C8_witness :
    (delete_note 1
        { rows := [{ id := 1, title := "a", content := "b",
                     created_at := 0, updated_at := 0 },
                   { id := 2, title := "c", content := "d",
                     created_at := 1, updated_at := 1 }], seq := 2 } =
      (deleteRow
        { rows := [{ id := 1, title := "a", content := "b",
                     created_at := 0, updated_at := 0 },
                   { id := 2, title := "c", content := "d",
                     created_at := 1, updated_at := 1 }], seq := 2 } 1,
       Resp.noContent) ∧
     get_note 1 (deleteRow
        { rows := [{ id := 1, title := "a", content := "b",
                     created_at := 0, updated_at := 0 },
                   { id := 2, title := "c", content := "d",
                     created_at := 1, updated_at := 1 }], seq := 2 } 1) =
       Resp.notFound) ∧
    delete_note 3
        { rows := [{ id := 1, title := "a", content := "b",
                     created_at := 0, updated_at := 0 },
                   { id := 2, title := "c", content := "d",
                     created_at := 1, updated_at := 1 }], seq := 2 } =
      ({ rows := [{ id := 1, title := "a", content := "b",
                    created_at := 0, updated_at := 0 },
                  { id := 2, title := "c", content := "d",
                    created_at := 1, updated_at := 1 }], seq := 2 },
       Resp.notFound) := by
  have h := C8_delete_semantics
    { rows := [{ id := 1, title := "a", content := "b",
                 created_at := 0, updated_at := 0 },
               { id := 2, title := "c", content := "d",
                 created_at := 1, updated_at := 1 }], seq := 2 }
    1 (by decide)
  have h3 := C8_delete_semantics
    { rows := [{ id := 1, title := "a", content := "b",
                 created_at := 0, updated_at := 0 },
               { id := 2, title := "c", content := "d",
                 created_at := 1, updated_at := 1 }], seq := 2 }
    3 (by decide)
  have h1 := h.1 { id := 1, title := "a", content := "b",
                   created_at := 0, updated_at := 0 } (by decide)
  exact ⟨⟨h1.1, h1.2.2.2.2⟩, h3.2 (by decide)⟩

/-- C6: the `updated_at ≥ created_at` invariant is preserved by every
operation (create, update, delete), given that the operation's `now` is
at least every timestamp previously written. -/
theorem C6_timestamp_invariant (st : Store) (now : Nat)
    (hts : tsOK st) (hfresh : freshTs st now) :
    (∀ (p : NoteCreate) (st' : Store) (r : Resp),
      create_note p now st = (st', r) → tsOK st') ∧
    (∀ (note_id : Nat) (p : NoteUpdate) (st' : Store) (r : Resp),
      update_note note_id p now st = (st', r) → tsOK st') ∧
    (∀ (note_id : Nat) (st' : Store) (r : Resp),
      delete_note note_id st = (st', r) → tsOK st') := by
  have hins : ∀ t c, tsOK (insertRow st t c now now).1 := by
    intro t c n hn
    unfold insertRow at hn
    simp only [List.mem_append, List.mem_singleton] at hn
    rcases hn with hn | rfl
    · exact hts n hn
    · exact Nat.le_refl now
  have hupd : ∀ id t c, tsOK (updateRow st id t c now) := by
    intro id t c n hn
    unfold updateRow at hn
    simp only [List.mem_map] at hn
    obtain ⟨m, hm, rfl⟩ := hn
    by_cases h : m.id = id
    · simp only [h, beq_self_eq_true, if_true]
      exact (hfresh m hm).1
    · simp only [beq_iff_eq, h, if_false]
      exact hts m hm
  refine ⟨?_, ?_, ?_⟩
  · intro p st' r h
    unfold create_note at h
    by_cases hv : p.valid = true
    · rw [hv] at h
      simp only [Bool.not_true, Bool.false_eq_true, if_false] at h
      rcases hsel : selectOne (insertRow st p.title p.content now now).1
          (insertRow st p.title p.content now now).2 with _ | row <;>
        rw [hsel] at h <;> cases h <;> exact hins p.title p.content
    · rw [Bool.eq_false_iff.mpr hv] at h
      simp only [Bool.false_eq_true, not_false_eq_true, if_true] at h
      cases h
      exact hts
  · intro note_id p st' r h
    unfold update_note at h
    by_cases hv : p.valid = true
    · rw [hv] at h
      simp only [Bool.not_true, Bool.false_eq_true, if_false] at h
      cases he : selectOne st note_id with
      | none => rw [he] at h; cases h; exact hts
      | some e =>
        rw [he] at h
        simp only at h
        by_cases hne : p.title = none ∧ p.content = none
        · rw [if_pos hne] at h
          cases h
          exact hts
        · rw [if_neg hne] at h
          rw [selectOne_updateRow he] at h
          cases h
          exact hupd note_id _ _
    · rw [Bool.eq_false_iff.mpr hv] at h
      simp only [Bool.false_eq_true, not_false_eq_true, if_true] at h
      cases h
      exact hts
  · intro note_id st' r h
    unfold delete_note at h
    cases he : selectOne st note_id with
    | none => rw [he] at h; cases h; exact hts
    | some e =>
      rw [he] at h
      cases h
      intro n hn
      exact hts n (mem_deleteRow.1 hn).1

/-- Witness for C6: on a one-note store with consistent timestamps, the
invariant still holds after a create, an update and a delete at a later
time. -/
theorem C6_witness :
    tsOK (create_note { title := "t", content := "c" } 5
      { rows := [{ id := 1, title := "a", content := "b",
                   created_at := 1, updated_at := 2 }], seq := 1 }).1 ∧
    tsOK (update_note 1 { title := some "t", content := none } 5
      { rows := [{ id := 1, title := "a", content := "b",
                   created_at := 1, updated_at := 2 }], seq := 1 }).1 ∧
    tsOK (delete_note 1
      { rows := [{ id := 1, title := "a", content := "b",
                   created_at := 1, updated_at := 2 }], seq := 1 }).1 := by
  have h := C6_timestamp_invariant
    { rows := [{ id := 1, title := "a", content := "b",
                 created_at := 1, updated_at := 2 }], seq := 1 }
    5 (by decide) (by decide)
  exact ⟨h.1 { title := "t", content := "c" } _ _ rfl,
         h.2.1 1 { title := some "t", content := none } _ _ rfl,
         h.2.2 1 _ _ rfl⟩

/-- C9: on a well-formed store, a create assigns the fresh id
`seq + 1`, strictly greater than (hence distinct from) the id of every
note previously inserted (every stored id is `≤ seq`, and `seq` is the
largest id ever assigned, bumped only by inserts); update and delete
never change any surviving row's id nor the sequence, so no operation
changes an existing note's id. -/
theorem C9_ids_unique_monotone (st : Store) (now : Nat) (hwf : st.WF) :
    (∀ p : NoteCreate, p.valid = true →
      ∃ (note : Note) (st' : Store),
        create_note p now st = (st', Resp.ok note) ∧
        note.id = st.seq + 1 ∧
        (∀ n ∈ st.rows, n.id < note.id) ∧
        st'.rows.map Note.id = st.rows.map Note.id ++ [note.id] ∧
        st'.seq = st.seq + 1 ∧ st'.WF) ∧
    (∀ (note_id : Nat) (p : NoteUpdate),
      (update_note note_id p now st).1.rows.map Note.id =
          st.rows.map Note.id ∧
      (update_note note_id p now st).1.seq = st.seq) ∧
    (∀ note_id : Nat,
      (delete_note note_id st).1.rows.map Note.id =
          (st.rows.map Note.id).filter (fun i => i != note_id) ∧
      (delete_note note_id st).1.seq = st.seq) := by
  obtain ⟨h1, h2⟩ := hwf
  refine ⟨?_, ?_, ?_⟩
  · intro p hv
    refine ⟨_, _, create_note_eq p now st hv h1, rfl, ?_, ?_, rfl, ?_⟩
    · intro n hn
      have := h1 n hn
      simp only
      omega
    · simp
    · have := WF_insertRow st p.title p.content now now ⟨h1, h2⟩
      unfold insertRow at this
      simpa using this
  · intro note_id p
    unfold update_note
    by_cases hv : p.valid = true
    · rw [hv]
      simp only [Bool.not_true, Bool.false_eq_true, if_false]
      cases he : selectOne st note_id with
      | none => simp
      | some e =>
        by_cases hne : p.title = none ∧ p.content = none
        · simp [hne]
        · simp only [hne, if_false]
          rw [selectOne_updateRow he]
          simp only
          exact ⟨updateRow_map_id st note_id _ _ now, rfl⟩
    · rw [Bool.eq_false_iff.mpr hv]
      simp
  · intro note_id
    unfold delete_note
    cases he : selectOne st note_id with
    | none =>
      simp only
      constructor
      · have hall := selectOne_none he
        have : (st.rows.map Note.id).filter (fun i => i != note_id) =
            st.rows.map Note.id := by
          apply List.filter_eq_self.mpr
          intro i hi
          obtain ⟨n, hn, rfl⟩ := List.mem_map.1 hi
          simpa using hall n hn
        rw [this]
      · trivial
    | some e =>
      constructor
      · unfold deleteRow
        simp only
        rw [List.filter_map Note.id st.rows]
        rfl
      · trivial

/-- Witness for C9 on a one-note store: the create assigns id 2 = seq+1,
greater than the stored id 1; the update keeps the id list `[1]`; the
delete of id 1 filters it out of the id list. -/
theorem C9_witness :
    (∃ (note : Note) (st' : Store),
      create_note { title := "t", content := "c" } 5
          { rows := [{ id := 1, title := "a", content := "b",
                       created_at := 0, updated_at := 0 }], seq := 1 } =
        (st', Resp.ok note) ∧
      note.id = 2 ∧
      (∀ n ∈ ({ rows := [{ id := 1, title := "a", content := "b",
                           created_at := 0, updated_at := 0 }],
                seq := 1 } : Store).rows, n.id < note.id) ∧
      st'.rows.map Note.id = [1] ++ [note.id] ∧
      st'.seq = 2 ∧ st'.WF) ∧
    (update_note 1 { title := some "t", content := none } 5
        { rows := [{ id := 1, title := "a", content := "b",
                     created_at := 0, updated_at := 0 }],
          seq := 1 }).1.rows.map Note.id = [1] := by
  have h := C9_ids_unique_monotone
    { rows := [{ id := 1, title := "a", content := "b",
                 created_at := 0, updated_at := 0 }], seq := 1 }
    5 (by decide)
  exact ⟨h.1 { title := "t", content := "c" } (by decide),
         (h.2.1 1 { title := some "t", content := none }).1⟩

/-- C5: list returns exactly the stored notes (a permutation of the
rows) ordered by `updated_at` descending with ties broken by `id`
descending; the empty store yields the empty array (status 200, the
route cannot fail — `list_notes` is total); and after creating note A
and then note B on a well-formed store, with the clock not going
backwards, the listing returns B strictly before A. -/
theorem C5_list_ordering :
    (∀ st : Store,
      (list_notes st).Perm st.rows ∧ (list_notes st).Sorted noteLE) ∧
    list_notes emptyStore = [] ∧
    (∀ (st : Store) (pA pB : NoteCreate) (nowA nowB : Nat)
        (stA stB : Store) (A B : Note),
      st.WF → pA.valid = true → pB.valid = true → nowA ≤ nowB →
      create_note pA nowA st = (stA, Resp.ok A) →
      create_note pB nowB stA = (stB, Resp.ok B) →
      [B, A].Sublist (list_notes stB)) := by
  refine ⟨?_, rfl, ?_⟩
  · intro st
    exact ⟨List.perm_insertionSort noteLE st.rows,
           List.sorted_insertionSort noteLE st.rows⟩
  · intro st pA pB nowA nowB stA stB A B hwf hvA hvB hle hcA hcB
    obtain ⟨h1, h2⟩ := hwf
    rw [create_note_eq pA nowA st hvA h1] at hcA
    injection hcA with hst hrA
    injection hrA with hA
    subst hst
    subst hA
    have hwfA : Store.WF
        ({ rows := st.rows ++
            [{ id := st.seq + 1, title := pA.title, content := pA.content,
               created_at := nowA, updated_at := nowA }],
           seq := st.seq + 1 } : Store) := by
      have := WF_insertRow st pA.title pA.content nowA nowA ⟨h1, h2⟩
      simpa [insertRow] using this
    rw [create_note_eq pB nowB _ hvB hwfA.1] at hcB
    injection hcB with hst2 hrB
    injection hrB with hB
    subst hst2
    subst hB
    apply sublist_pair_of_pairwise
      (List.sorted_insertionSort noteLE _)
    · exact (List.perm_insertionSort noteLE _).mem_iff.mpr (by simp)
    · exact (List.perm_insertionSort noteLE _).mem_iff.mpr (by simp)
    · intro h
      have h' := congrArg Note.id h
      simp only at h'
      omega
    · intro h
      rcases h with h | ⟨h, h'⟩
      · simp only at h
        omega
      · simp only at h h'
        omega

/-- Witness for C5: create `("A","a")` at time 1 then `("B","b")` at
time 2 on the empty store; the listing contains B before A. -/
theorem C5_witness :
    ([{ id := 2, title := "B", content := "b",
        created_at := 2, updated_at := 2 },
      { id := 1, title := "A", content := "a",
        created_at := 1, updated_at := 1 }] : List Note).Sublist
      (list_notes
        { rows := [{ id := 1, title := "A", content := "a",
                     created_at := 1, updated_at := 1 },
                   { id := 2, title := "B", content := "b",
                     created_at := 2, updated_at := 2 }], seq := 2 }) :=
  C5_list_ordering.2.2 emptyStore
    { title := "A", content := "a" } { title := "B", content := "b" }
    1 2
    { rows := [{ id := 1, title := "A", content := "a",
                 created_at := 1, updated_at := 1 }], seq := 1 }
    { rows := [{ id := 1, title := "A", content := "a",
                 created_at := 1, updated_at := 1 },
               { id := 2, title := "B", content := "b",
                 created_at := 2, updated_at := 2 }], seq := 2 }
    { id := 1, title := "A", content := "a",
      created_at := 1, updated_at := 1 }
    { id := 2, title := "B", content := "b",
      created_at := 2, updated_at := 2 }
    (by decide) (by decide) (by decide) (by decide) rfl rfl

end NotesApi
